import Mathlib

/-!
Verification of the SensePath telemetry log server
(`src/Tools/LogServer/LogServer.py`).

The server keeps a bounded, durable log of JSON telemetry records in the
file `logs.json` and exposes three HTTP routes: `OPTIONS` (CORS preflight),
`GET /` (dashboard page), `GET /data` (full log), and `POST /log`
(append one record).

The embedding below models the request handlers as pure functions over the
parsed content of the durable log file (a list of JSON values): the Python
code re-reads and rewrites the whole file on every append, so the file's
parsed content is the entire server state.  JSON numbers are modelled by
their source token (a string); no property proved here computes with
numeric values, only passes them through, so this keeps the client's
payload bytes exact.
-/

set_option maxRecDepth 20000

mutual

/-- JSON values, as produced by Python's `json.loads`: null, booleans,
numbers (kept as their literal token), strings, arrays, and objects
(ordered key/value sequences, mirroring Python's insertion-ordered dicts). -/
inductive Json where
  | null
  | bool (b : Bool)
  | num (tok : String)
  | str (s : String)
  | arr (elems : JsonArr)
  | obj (fields : JsonObj)
deriving DecidableEq

inductive JsonArr where
  | nil
  | cons (hd : Json) (tl : JsonArr)
deriving DecidableEq

inductive JsonObj where
  | nil
  | cons (key : String) (val : Json) (tl : JsonObj)
deriving DecidableEq

end

/-- Lookup of a key in a JSON object, Python `d[k]` / `d.get(k)`. -/
def JsonObj.get : JsonObj → String → Option Json
  | .nil, _ => none
  | .cons k v tl, key => if k = key then some v else JsonObj.get tl key

/-- Python dict item assignment `d[k] = v` on an insertion-ordered dict:
if the key is present its value is replaced in place, otherwise the new
pair is appended at the end (line 122, `new_log['timestamp'] = ...`). -/
def JsonObj.set : JsonObj → String → Json → JsonObj
  | .nil, key, v => .cons key v .nil
  | .cons k v0 tl, key, v =>
      if k = key then .cons k v tl else .cons k v0 (JsonObj.set tl key v)

/-- Escape one character the way `json.dump` (with its default
`ensure_ascii=True`) writes it inside a string literal.  Characters beyond
the basic multilingual plane are written as a single `\uXXXX` unit here; the
claims under proof only serialize ASCII payloads. -/
def escapeChar (c : Char) : List Char :=
  if c = '"' then ['\\', '"']
  else if c = '\\' then ['\\', '\\']
  else if c = '\n' then ['\\', 'n']
  else if c = '\r' then ['\\', 'r']
  else if c = '\t' then ['\\', 't']
  else if c = '\x08' then ['\\', 'b']
  else if c = '\x0c' then ['\\', 'f']
  else if c.toNat < 32 || 126 < c.toNat then
    ['\\', 'u', Nat.digitChar (c.toNat / 4096 % 16), Nat.digitChar (c.toNat / 256 % 16),
     Nat.digitChar (c.toNat / 16 % 16), Nat.digitChar (c.toNat % 16)]
  else [c]

/-- Serialize a string to a JSON string literal as `json.dump` does. -/
def dumpStr (s : String) : String :=
  "\"" ++ String.mk (s.toList.flatMap escapeChar) ++ "\""

mutual

/-- Serialization of JSON values exactly as Python's `json.dump` with its
default separators `(', ', ': ')` writes them (line 129,
`json.dump(logs, f)`). -/
def Json.dump : Json → String
  | .null => "null"
  | .bool true => "true"
  | .bool false => "false"
  | .num t => t
  | .str s => dumpStr s
  | .arr xs => "[" ++ JsonArr.dumpItems xs ++ "]"
  | .obj kvs => "\x7b" ++ JsonObj.dumpItems kvs ++ "\x7d"

def JsonArr.dumpItems : JsonArr → String
  | .nil => ""
  | .cons x .nil => Json.dump x
  | .cons x (.cons y tl) => Json.dump x ++ ", " ++ JsonArr.dumpItems (.cons y tl)

def JsonObj.dumpItems : JsonObj → String
  | .nil => ""
  | .cons k v .nil => dumpStr k ++ ": " ++ Json.dump v
  | .cons k v (.cons k2 v2 tl) =>
      dumpStr k ++ ": " ++ Json.dump v ++ ", " ++ JsonObj.dumpItems (.cons k2 v2 tl)

end

/-- Serialization of the whole log list as the JSON array `json.dump`
writes into `logs.json`. -/
def dumpLogs (logs : List Json) : String :=
  "[" ++ String.intercalate ", " (logs.map Json.dump) ++ "]"

/-- The raw byte content of the durable `logs.json` file when the parsed
log is `logs`: the file is always exactly the `json.dump` serialization of
the current list (lines 12-13 initialize it to `[]`; lines 124-130 rewrite
it in full on every successful append). -/
def durableContent (logs : List Json) : String := dumpLogs logs

/-- Wall-clock instant, the components `datetime.now()` exposes that
`strftime("%H:%M:%S.%f")` uses. -/
structure Time where
  hour : Nat
  minute : Nat
  second : Nat
  micro : Nat
deriving DecidableEq

/-- Two-digit zero-padded decimal field (`%H`, `%M`, `%S`). -/
def fmt2 (n : Nat) : List Char := [Nat.digitChar (n / 10), Nat.digitChar (n % 10)]

/-- Six-digit zero-padded microsecond field (`%f`). -/
def fmt6 (n : Nat) : List Char :=
  [Nat.digitChar (n / 100000), Nat.digitChar (n / 10000 % 10), Nat.digitChar (n / 1000 % 10),
   Nat.digitChar (n / 100 % 10), Nat.digitChar (n / 10 % 10), Nat.digitChar (n % 10)]

/-- The characters of `datetime.now().strftime("%H:%M:%S.%f")`. -/
def strftimeChars (t : Time) : List Char :=
  fmt2 t.hour ++ ':' :: fmt2 t.minute ++ ':' :: fmt2 t.second ++ '.' :: fmt6 t.micro

/-- The server-assigned timestamp,
`datetime.now().strftime("%H:%M:%S.%f")[:-3]` (line 122): the microsecond
field truncated from six digits to three, giving `HH:MM:SS.mmm`. -/
def serverTimestamp (t : Time) : String :=
  String.mk ((strftimeChars t).take ((strftimeChars t).length - 3))

/-- Boolean check that a string has the shape `HH:MM:SS.mmm`: twelve
characters, digits everywhere except `:` at positions 2 and 5 and `.` at
position 8. -/
def isTsFormat (s : String) : Bool :=
  match s.toList with
  | [h1, h2, c1, m1, m2, c2, s1, s2, d1, f1, f2, f3] =>
      h1.isDigit && h2.isDigit && c1 = ':' && m1.isDigit && m2.isDigit && c2 = ':' &&
      s1.isDigit && s2.isDigit && d1 = '.' && f1.isDigit && f2.isDigit && f3.isDigit
  | _ => false

/-- Python's `int(s)` (line 117): strips surrounding whitespace, then an
optional sign followed by decimal digits, in which single underscores may
appear between digits (`1_0` is 10; leading, trailing or doubled
underscores are invalid); anything else raises `ValueError`, modelled as
`none`.  Non-ASCII digit and whitespace forms, which Python also accepts,
are outside this model: no theorem instantiates such a header. -/
def pyInt (s : String) : Option Int :=
  let ws : Char → Bool := fun c => c = ' ' || c = '\t' || c = '\n' || c = '\r' ||
    c = '\x0b' || c = '\x0c'
  let cs := ((s.toList.dropWhile ws).reverse.dropWhile ws).reverse
  let core : List Char → Option Nat := fun ds =>
    if ds ≠ [] ∧ ds.all (fun c => c.isDigit || c == '_') ∧
        ds.head? ≠ some '_' ∧ ds.getLast? ≠ some '_' ∧
        (ds.zip ds.tail).all (fun p => !(p.1 == '_' && p.2 == '_')) then
      some ((ds.filter (fun c => c ≠ '_')).foldl (fun a c => 10 * a + (c.toNat - 48)) 0)
    else none
  match cs with
  | '-' :: rest => (core rest).map (fun n => -(n : Int))
  | '+' :: rest => (core rest).map (fun n => (n : Int))
  | rest => (core rest).map (fun n => (n : Int))

/-- `self.rfile.read(content_length)` (line 118), for the counts at which
`io.BufferedReader.read` returns: `read(n)` with `n ≥ 0` yields the first
`n` bytes of the request body, and `read(-1)` consumes the stream to its
end.  For `n ≤ -2` the reader raises
`ValueError: read length must be non-negative or -1`; `do_POST` models
that case as an uncaught exception and never calls this function there. -/
def readBody (n : Int) (body : String) : String :=
  if n < 0 then body else String.mk (body.toList.take n.toNat)

/-- JSON insignificant whitespace, the characters `json.loads` skips
between tokens (space, tab, newline, carriage return). -/
def skipWs (cs : List Char) : List Char :=
  cs.dropWhile (fun c => c = ' ' || c = '\t' || c = '\n' || c = '\r')

/-- Value of a hexadecimal digit, for `\uXXXX` escapes. -/
def hexVal (c : Char) : Option Nat :=
  if '0' ≤ c ∧ c ≤ '9' then some (c.toNat - 48)
  else if 'a' ≤ c ∧ c ≤ 'f' then some (c.toNat - 87)
  else if 'A' ≤ c ∧ c ≤ 'F' then some (c.toNat - 55)
  else none

/-- The character named by a single-character JSON escape. -/
def escChar (c : Char) : Option Char :=
  if c = '"' then some '"'
  else if c = '\\' then some '\\'
  else if c = '/' then some '/'
  else if c = 'b' then some '\x08'
  else if c = 'f' then some '\x0c'
  else if c = 'n' then some '\n'
  else if c = 'r' then some '\r'
  else if c = 't' then some '\t'
  else none

/-- Body of a JSON string literal, after the opening quote: returns the
decoded characters and the input remaining after the closing quote.
`json.loads` in its default strict mode rejects raw control characters;
a `\uXXXX` escape is decoded as a single code unit (surrogate pairing is
not modelled; the payloads in the claims are ASCII). -/
def parseStrChars : List Char → Option (List Char × List Char)
  | [] => none
  | '"' :: rest => some ([], rest)
  | '\\' :: 'u' :: x1 :: x2 :: x3 :: x4 :: more => do
      let h1 ← hexVal x1
      let h2 ← hexVal x2
      let h3 ← hexVal x3
      let h4 ← hexVal x4
      let (tl, rem) ← parseStrChars more
      pure (Char.ofNat (h1 * 4096 + h2 * 256 + h3 * 16 + h4) :: tl, rem)
  | '\\' :: e :: rest => do
      let ch ← escChar e
      let (tl, rem) ← parseStrChars rest
      pure (ch :: tl, rem)
  | c :: rest =>
      if c.toNat < 32 then none
      else do
        let (tl, rem) ← parseStrChars rest
        pure (c :: tl, rem)

/-- A JSON number token: `-? (0 | [1-9][0-9]*) (.[0-9]+)? ([eE][+-]?[0-9]+)?`.
Returns the token's characters and the remaining input. -/
def parseNumTok (cs : List Char) : Option (List Char × List Char) :=
  let (sign, cs1) := match cs with
    | '-' :: rest => (['-'], rest)
    | rest => (([] : List Char), rest)
  let intDigits := cs1.takeWhile Char.isDigit
  let cs2 := cs1.drop intDigits.length
  if intDigits = [] then none
  else if intDigits.head? = some '0' ∧ intDigits.length ≠ 1 then none
  else
    let (frac, cs3) := match cs2 with
      | '.' :: rest =>
          let ds := rest.takeWhile Char.isDigit
          if ds = [] then (([] : List Char), cs2) else ('.' :: ds, rest.drop ds.length)
      | _ => (([] : List Char), cs2)
    if cs2 ≠ cs3 ∨ frac = [] then
      match cs3 with
      | e :: rest =>
          if e = 'e' ∨ e = 'E' then
            let (es, rest2) := match rest with
              | '+' :: r => (['+'], r)
              | '-' :: r => (['-'], r)
              | r => (([] : List Char), r)
            let ds := rest2.takeWhile Char.isDigit
            if ds = [] then some (sign ++ intDigits ++ frac, cs3)
            else some (sign ++ intDigits ++ frac ++ e :: es ++ ds, rest2.drop ds.length)
          else some (sign ++ intDigits ++ frac, cs3)
      | [] => some (sign ++ intDigits ++ frac, cs3)
    else none

mutual

/-- Recursive-descent JSON value parser modelling `json.loads` (line 121):
skips leading whitespace, then parses one value.  `fuel` bounds nesting and
iteration; the top-level caller supplies more than the input length, which
is always sufficient since every recursive call consumes input. -/
def parseVal : Nat → List Char → Option (Json × List Char)
  | 0, _ => none
  | fuel + 1, cs =>
      match skipWs cs with
      | 'n' :: 'u' :: 'l' :: 'l' :: more => some (.null, more)
      | 't' :: 'r' :: 'u' :: 'e' :: more => some (.bool true, more)
      | 'f' :: 'a' :: 'l' :: 's' :: 'e' :: more => some (.bool false, more)
      | 'N' :: 'a' :: 'N' :: more => some (.num "NaN", more)
      | 'I' :: 'n' :: 'f' :: 'i' :: 'n' :: 'i' :: 't' :: 'y' :: more =>
          some (.num "Infinity", more)
      | '-' :: 'I' :: 'n' :: 'f' :: 'i' :: 'n' :: 'i' :: 't' :: 'y' :: more =>
          some (.num "-Infinity", more)
      | '"' :: rest => do
          let (chars, rem) ← parseStrChars rest
          pure (.str (String.mk chars), rem)
      | '[' :: rest =>
          (match skipWs rest with
          | ']' :: rem => some (.arr .nil, rem)
          | _ => do
              let (items, rem) ← parseArrItems fuel rest
              pure (.arr items, rem))
      | '\x7b' :: rest =>
          (match skipWs rest with
          | '\x7d' :: rem => some (.obj .nil, rem)
          | _ => do
              let (fields, rem) ← parseObjItems fuel rest .nil
              pure (.obj fields, rem))
      | cs' => do
          let (tok, rem) ← parseNumTok cs'
          pure (.num (String.mk tok), rem)

/-- Comma-separated array elements, up to and including the closing `]`. -/
def parseArrItems : Nat → List Char → Option (JsonArr × List Char)
  | 0, _ => none
  | fuel + 1, cs => do
      let (v, rem) ← parseVal fuel cs
      match skipWs rem with
      | ',' :: rest => do
          let (tl, rem2) ← parseArrItems fuel rest
          pure (.cons v tl, rem2)
      | ']' :: rest => pure (.cons v .nil, rest)
      | _ => none

/-- Comma-separated object members, up to and including the closing brace.
Members are added with `JsonObj.set`, matching Python's dict build: a
duplicate key keeps its first position and takes the last value. -/
def parseObjItems : Nat → List Char → JsonObj → Option (JsonObj × List Char)
  | 0, _, _ => none
  | fuel + 1, cs, acc =>
      match skipWs cs with
      | '"' :: rest => do
          let (kchars, rem) ← parseStrChars rest
          match skipWs rem with
          | ':' :: rest2 => do
              let (v, rem2) ← parseVal fuel rest2
              let acc2 := acc.set (String.mk kchars) v
              match skipWs rem2 with
              | ',' :: rest3 => parseObjItems fuel rest3 acc2
              | '\x7d' :: rest3 => pure (acc2, rest3)
              | _ => none
          | _ => none
      | _ => none

end

/-- `json.loads` on a request body (line 121): parse one JSON value and
require that only whitespace follows; otherwise Python raises
(`Expecting value` / `Extra data`), modelled as `none`. -/
def jsonLoads (s : String) : Option Json :=
  match parseVal (s.length + 1) s.toList with
  | some (v, rem) => if skipWs rem = [] then some v else none
  | none => none

/-- An HTTP response as the handler assembles it: `send_response(status)`,
the `send_header` calls in order, then the bytes written to `wfile`. -/
structure HttpResponse where
  status : Nat
  headers : List (String × String)
  body : String
deriving DecidableEq

/-- The permissive CORS origin header sent on `/`, `/log` and `OPTIONS`
responses. -/
def corsHdr : String × String := ("Access-Control-Allow-Origin", "*")

/-- `do_OPTIONS` (lines 16-21): for any request path, 200 with the three
CORS headers and no body. -/
def do_OPTIONS (_path : String) : HttpResponse :=
  ⟨200,
   [corsHdr,
    ("Access-Control-Allow-Methods", "POST, GET, OPTIONS"),
    ("Access-Control-Allow-Headers", "Content-Type")],
   ""⟩

/-- The inline dashboard page (lines 30-105).  The spec treats this markup
as an opaque external asset outside the core, and no claim constrains its
content, so it is modelled as an abstract constant. -/
def dashboardHtml : String := "<!DOCTYPE html> SensePath dashboard (opaque static asset)"

/-- `do_GET` (lines 23-113) as a function of the request path and the
parsed content of the durable log file.  `/` serves the dashboard with a
CORS origin header; `/data` serves the raw file content (the serialized
log) with only a `Content-type` header; any other path falls off the end
of the method and no response is written (`none`). -/
def do_GET (path : String) (logs : List Json) : Option HttpResponse :=
  if path = "/" then
    some ⟨200, [corsHdr, ("Content-type", "text/html; charset=utf-8")], dashboardHtml⟩
  else if path = "/data" then
    some ⟨200, [("Content-type", "application/json")], durableContent logs⟩
  else none

/-- Outcome of a `do_POST` call: the method can return without writing
anything (path not `/log`), let an exception escape before the `try` block
(no response on the wire; `socketserver` catches it and keeps serving), or
produce a response together with the resulting durable log. -/
inductive PostResult where
  | noResponse
  | uncaught (msg : String)
  | responded (newLogs : List Json) (resp : HttpResponse)
deriving DecidableEq

/-- The core append of `do_POST` (lines 122-130): stamp the decoded object
with the server time, load the log, append, trim to the newest 500 when
the bound is exceeded (`logs[-500:]`), and rewrite the file. -/
def appendLog (logs : List Json) (fields : JsonObj) (now : Time) : List Json :=
  let newLog := Json.obj (fields.set "timestamp" (.str (serverTimestamp now)))
  let logs1 := logs ++ [newLog]
  if 500 < logs1.length then logs1.drop (logs1.length - 500) else logs1

/-- Exact bytes of the success response body (line 136). -/
def successBody : String := "\x7b\"status\": \"ok\"\x7d"

/-- Placeholder for `str(e)` of a JSON decode error (the Python text is
e.g. `Expecting value: line 1 column 1 (char 0)`); no claim constrains it. -/
def decodeErrText : String := "Expecting value"

/-- Placeholder for `str(e)` of the `TypeError` raised by item assignment
on a decoded non-dict value (line 122); no claim constrains it. -/
def typeErrText : String := "item assignment on non-dict"

/-- `do_POST` (lines 115-142).  On `/log`: lines 117-118 run before the
`try` block, so a Content-Length header that does not parse as an integer
raises an uncaught `ValueError` from `int()`, and one that parses to an
integer `≤ -2` raises an uncaught `ValueError` from
`io.BufferedReader.read`; in both cases the exception escapes the handler
and no response is written.  Otherwise the body is read and decoded inside
`try`, a decode failure or a non-object value yields 400 with the log
untouched, and an object is stamped, appended, persisted and acknowledged
with 200.  On any other path the method writes nothing. -/
def do_POST (path : String) (contentLengthHeader : Option String) (rawBody : String)
    (now : Time) (logs : List Json) : PostResult :=
  if path = "/log" then
    match pyInt (contentLengthHeader.getD "0") with
    | none => .uncaught "invalid literal for int() with base 10"
    | some n =>
      if n ≤ -2 then .uncaught "read length must be non-negative or -1"
      else
        let post_data := readBody n rawBody
        match jsonLoads post_data with
        | none => .responded logs ⟨400, [corsHdr], decodeErrText⟩
        | some (Json.obj fields) =>
            .responded (appendLog logs fields now)
              ⟨200, [corsHdr, ("Content-Type", "application/json")], successBody⟩
        | some _ => .responded logs ⟨400, [corsHdr], typeErrText⟩
  else .noResponse

/-- The durable write of lines 128-130 when the underlying I/O fails after
`written` bytes: `f.seek(0)` followed by `json.dump` streams the new
serialization over the old content; the exception aborts before
`f.truncate()`, so the file keeps the unoverwritten tail of the old
content, and the `except` branch (lines 137-142) answers 400 with the CORS
origin header and `str(e)` as body.  No rollback of the partial write is
attempted. -/
def appendPersistFail (logs : List Json) (fields : JsonObj) (now : Time)
    (written : Nat) (emsg : String) : String × HttpResponse :=
  let newContent := durableContent (appendLog logs fields now)
  let oldContent := durableContent logs
  (String.mk (newContent.toList.take written ++ oldContent.toList.drop written),
   ⟨400, [corsHdr], emsg⟩)

/-- One inbound HTTP request, as dispatched to the handler methods. -/
inductive Request where
  | options (path : String)
  | get (path : String)
  | post (path : String) (contentLengthHeader : Option String) (body : String) (now : Time)

/-- One request handled to completion: `socketserver.TCPServer`
(line 144) is single-threaded and synchronous, so each request runs
start-to-finish against the durable state before the next begins. -/
def stepServer (logs : List Json) : Request → List Json × Option HttpResponse
  | .options p => (logs, some (do_OPTIONS p))
  | .get p => (logs, do_GET p logs)
  | .post p cl b t =>
      match do_POST p cl b t logs with
      | .noResponse => (logs, none)
      | .uncaught _ => (logs, none)
      | .responded newLogs resp => (newLogs, some resp)

/-- The durable log after a sequence of requests, starting from the empty
log the server creates at startup (lines 11-13). -/
def logsAfter (reqs : List Request) : List Json :=
  reqs.foldl (fun l r => (stepServer l r).1) []

/-- The response produced for the request at position `i` of a trace
(`none` if the index is out of range or the handler wrote no response). -/
def responseAt (reqs : List Request) (i : Nat) : Option HttpResponse :=
  match reqs.drop i with
  | [] => none
  | r :: _ => (stepServer (logsAfter (reqs.take i)) r).2

/-- The record stamped at append time, as a function of the decoded body
and the server clock (line 122). -/
def stampedRecord (fields : JsonObj) (now : Time) : Json :=
  Json.obj (fields.set "timestamp" (.str (serverTimestamp now)))

/-- The stamped records of a whole append sequence, in arrival order. -/
def stampAll (reqs : List (JsonObj × Time)) : List Json :=
  reqs.map (fun r => stampedRecord r.1 r.2)

/-- The durable log after a sequence of successful appends starting from
the empty log. -/
def runAppends (reqs : List (JsonObj × Time)) : List Json :=
  reqs.foldl (fun logs r => appendLog logs r.1 r.2) []

/-- ASCII lower-casing of one character, for header-name comparison. -/
def lowerChar (c : Char) : Char :=
  if 'A' ≤ c ∧ c ≤ 'Z' then Char.ofNat (c.toNat + 32) else c

/-- Case-insensitive equality of HTTP header names. -/
def hdrNameEq (a b : String) : Bool := a.toList.map lowerChar == b.toList.map lowerChar

/-! ### Helper lemmas -/

theorem digitChar_isDigit (k : Nat) (h : k < 10) : (Nat.digitChar k).isDigit = true := by
  interval_cases k <;> decide

theorem JsonObj.get_set_same (kvs : JsonObj) (key : String) (v : Json) :
    (kvs.set key v).get key = some v := by
  match kvs with
  | .nil => simp [JsonObj.set, JsonObj.get]
  | .cons k v0 tl =>
      by_cases hk : k = key
      · simp [JsonObj.set, JsonObj.get, hk]
      · simp [JsonObj.set, JsonObj.get, hk, JsonObj.get_set_same tl key v]

theorem JsonObj.get_set_other (kvs : JsonObj) (key other : String) (v : Json)
    (h : other ≠ key) : (kvs.set key v).get other = kvs.get other := by
  match kvs with
  | .nil => simp [JsonObj.set, JsonObj.get, Ne.symm h]
  | .cons k v0 tl =>
      by_cases hk : k = key
      · subst hk
        simp [JsonObj.set, JsonObj.get, Ne.symm h]
      · by_cases ho : k = other
        · simp [JsonObj.set, JsonObj.get, hk, ho, h]
        · simp [JsonObj.set, JsonObj.get, hk, ho, JsonObj.get_set_other tl key other v h]

theorem isTsFormat_serverTimestamp (t : Time) (hh : t.hour < 24) (hm : t.minute < 60)
    (hs : t.second < 60) (hu : t.micro < 1000000) :
    isTsFormat (serverTimestamp t) = true := by
  have d1 : t.hour / 10 < 10 := by omega
  have d2 : t.hour % 10 < 10 := by omega
  have d3 : t.minute / 10 < 10 := by omega
  have d4 : t.minute % 10 < 10 := by omega
  have d5 : t.second / 10 < 10 := by omega
  have d6 : t.second % 10 < 10 := by omega
  have d7 : t.micro / 100000 < 10 := by omega
  have d8 : t.micro / 10000 % 10 < 10 := by omega
  have d9 : t.micro / 1000 % 10 < 10 := by omega
  simp only [serverTimestamp, strftimeChars, fmt2, fmt6, List.cons_append, List.nil_append,
    List.length_cons, List.length_nil]
  norm_num
  simp only [List.take, isTsFormat, String.toList, String.mk]
  simp [digitChar_isDigit, d1, d2, d3, d4, d5, d6, d7, d8, d9]

theorem appendLog_eq_drop (logs : List Json) (fields : JsonObj) (now : Time)
    (h : logs.length ≤ 500) :
    appendLog logs fields now =
      (logs ++ [stampedRecord fields now]).drop (logs.length + 1 - 500) := by
  simp only [appendLog, stampedRecord, List.length_append, List.length_cons, List.length_nil]
  by_cases hl : 500 < logs.length + 1
  · simp [hl]
  · have h0 : logs.length + 1 - 500 = 0 := by omega
    simp [hl, h0]

theorem appendLog_length_le (logs : List Json) (fields : JsonObj) (now : Time)
    (h : logs.length ≤ 500) : (appendLog logs fields now).length ≤ 500 := by
  rw [appendLog_eq_drop logs fields now h]
  simp only [List.length_drop, List.length_append, List.length_cons, List.length_nil]
  omega

theorem drop_lastN_append {α : Type} (L S : List α) (n : Nat) :
    (L.drop (L.length - n) ++ S).drop ((L.drop (L.length - n) ++ S).length - n) =
      (L ++ S).drop ((L ++ S).length - n) := by
  have hk : L.length - n ≤ L.length := Nat.sub_le _ _
  have hsplit : (L ++ S).drop (L.length - n) = L.drop (L.length - n) ++ S := by
    rw [List.drop_append_eq_append_drop]
    have : L.length - n - L.length = 0 := by omega
    rw [this, List.drop_zero]
  rw [← hsplit, List.drop_drop]
  congr 1
  simp only [List.length_append, List.length_drop]
  omega

theorem foldl_appendLog (reqs : List (JsonObj × Time)) :
    ∀ l0 : List Json, l0.length ≤ 500 →
      reqs.foldl (fun logs r => appendLog logs r.1 r.2) l0 =
        (l0 ++ stampAll reqs).drop ((l0 ++ stampAll reqs).length - 500) := by
  induction reqs with
  | nil =>
      intro l0 h
      have h0 : l0.length - 500 = 0 := by omega
      simp [stampAll, h0]
  | cons r rest ih =>
      intro l0 h
      have step : appendLog l0 r.1 r.2 =
          (l0 ++ [stampedRecord r.1 r.2]).drop ((l0 ++ [stampedRecord r.1 r.2]).length - 500) := by
        rw [appendLog_eq_drop l0 r.1 r.2 h]
        simp
      calc (r :: rest).foldl (fun logs x => appendLog logs x.1 x.2) l0
      _ = rest.foldl (fun logs x => appendLog logs x.1 x.2) (appendLog l0 r.1 r.2) := by
        simp [List.foldl_cons]
      _ = (appendLog l0 r.1 r.2 ++ stampAll rest).drop
            ((appendLog l0 r.1 r.2 ++ stampAll rest).length - 500) := by
        exact ih _ (appendLog_length_le l0 r.1 r.2 h)
      _ = ((l0 ++ [stampedRecord r.1 r.2]) ++ stampAll rest).drop
            (((l0 ++ [stampedRecord r.1 r.2]) ++ stampAll rest).length - 500) := by
        rw [step]
        exact drop_lastN_append (l0 ++ [stampedRecord r.1 r.2]) (stampAll rest) 500
      _ = (l0 ++ stampAll (r :: rest)).drop ((l0 ++ stampAll (r :: rest)).length - 500) := by
        simp [stampAll, stampedRecord]

theorem runAppends_eq (reqs : List (JsonObj × Time)) :
    runAppends reqs = (stampAll reqs).drop (reqs.length - 500) := by
  have h := foldl_appendLog reqs [] (by simp)
  simpa [runAppends, stampAll] using h

theorem length_stampAll (reqs : List (JsonObj × Time)) : (stampAll reqs).length = reqs.length := by
  simp [stampAll]

theorem appendLog_getLast (logs : List Json) (fields : JsonObj) (now : Time) :
    (appendLog logs fields now).getLast? = some (stampedRecord fields now) := by
  simp only [appendLog, stampedRecord]
  by_cases hl : 500 < (logs ++ [Json.obj (fields.set "timestamp" (.str (serverTimestamp now)))]).length
  · simp only [hl, if_true]
    have hlen : (logs ++ [Json.obj (fields.set "timestamp" (.str (serverTimestamp now)))]).length
        = logs.length + 1 := by simp
    set x := Json.obj (fields.set "timestamp" (.str (serverTimestamp now))) with hx
    have hk : logs.length + 1 - 500 ≤ logs.length := by omega
    have hsplit : (logs ++ [x]).drop (logs.length + 1 - 500) =
        logs.drop (logs.length + 1 - 500) ++ [x] := by
      rw [List.drop_append_eq_append_drop]
      have : logs.length + 1 - 500 - logs.length = 0 := by omega
      rw [this, List.drop_zero]
    rw [hlen, hsplit, List.getLast?_concat]
  · simp only [hl, if_false]
    exact List.getLast?_concat _

/-! ### The claims -/

/-- C1.  Starting from the empty log, any sequence of successful appends
leaves a log of length `min N 500` that is exactly the newest 500 (or all
`N`) stamped records in their original relative order: the final log is
the original stamped sequence with its oldest `N - 500` records dropped
from the front.  In particular after 501 appends the first record is gone
and records 2..501 remain in order. -/
theorem claim_C1 (reqs : List (JsonObj × Time)) :
    (runAppends reqs).length = min reqs.length 500 ∧
    runAppends reqs = (stampAll reqs).drop (reqs.length - 500) := by
  refine ⟨?_, runAppends_eq reqs⟩
  rw [runAppends_eq reqs]
  simp only [List.length_drop, length_stampAll]
  omega

/-- C2.  For every JSON object body accepted by `POST /log` — an accepted
request is one whose Content-Length header parses to an integer `≥ -1`, so
that `rfile.read` returns instead of raising, and whose read body decodes
as a JSON object — the appended record (the newest record of the resulting
log, as returned by retrieval) has exactly the client's field values for
every key other than `timestamp` — including unknown extra fields, passed
through unmodified — while `timestamp` is overwritten with the
server-assigned clock value, which has the shape `HH:MM:SS.mmm` for any
valid wall-clock reading. -/
theorem claim_C2 (cl : Option String) (body : String) (now : Time) (logs : List Json)
    (n : Int) (fields : JsonObj)
    (hcl : pyInt (cl.getD "0") = some n) (hn : -1 ≤ n)
    (hdec : jsonLoads (readBody n body) = some (Json.obj fields)) :
    do_POST "/log" cl body now logs =
      .responded (appendLog logs fields now)
        ⟨200, [corsHdr, ("Content-Type", "application/json")], successBody⟩ ∧
    (appendLog logs fields now).getLast? = some (stampedRecord fields now) ∧
    stampedRecord fields now =
      Json.obj (fields.set "timestamp" (Json.str (serverTimestamp now))) ∧
    (∀ k : String, k ≠ "timestamp" →
      (fields.set "timestamp" (Json.str (serverTimestamp now))).get k = fields.get k) ∧
    (fields.set "timestamp" (Json.str (serverTimestamp now))).get "timestamp" =
      some (Json.str (serverTimestamp now)) ∧
    (now.hour < 24 → now.minute < 60 → now.second < 60 → now.micro < 1000000 →
      isTsFormat (serverTimestamp now) = true) := by
  refine ⟨?_, appendLog_getLast logs fields now, rfl, ?_, ?_, ?_⟩
  · have hge : ¬ n ≤ -2 := by omega
    simp [do_POST, hcl, hge, hdec]
  · intro k hk
    exact JsonObj.get_set_other fields "timestamp" k _ hk
  · exact JsonObj.get_set_same fields "timestamp" _
  · intro hh hm hs hu
    exact isTsFormat_serverTimestamp now hh hm hs hu

/-- The round-trip example payload of the spec, extended with an unknown
extra field and a client-supplied `timestamp` that the server must
replace. -/
def exampleBody : String :=
  "\x7b\"state\": \"NORMAL\", \"left\": 1.2, \"center\": 0.8, \"right\": 1.5, \"invalidRatio\": 0.1, \"stability\": 0.05, \"fps\": 30.0, \"note\": \"extra-field\", \"timestamp\": \"spoofed\"\x7d"

/-- The decoded form of `exampleBody`. -/
def exampleFields : JsonObj :=
  .cons "state" (.str "NORMAL") (.cons "left" (.num "1.2") (.cons "center" (.num "0.8")
    (.cons "right" (.num "1.5") (.cons "invalidRatio" (.num "0.1")
      (.cons "stability" (.num "0.05") (.cons "fps" (.num "30.0")
        (.cons "note" (.str "extra-field") (.cons "timestamp" (.str "spoofed") .nil))))))))

theorem claim_C2_witness :
    pyInt ((some "999" : Option String).getD "0") = some 999 ∧ (-1 : Int) ≤ 999 ∧
    jsonLoads (readBody 999 exampleBody) = some (Json.obj exampleFields) ∧
    do_POST "/log" (some "999") exampleBody ⟨12, 34, 56, 789123⟩ [] =
      .responded (appendLog [] exampleFields ⟨12, 34, 56, 789123⟩)
        ⟨200, [corsHdr, ("Content-Type", "application/json")], successBody⟩ := by
  refine ⟨by decide, by decide, by decide, ?_⟩
  exact (claim_C2 (some "999") exampleBody ⟨12, 34, 56, 789123⟩ [] 999 exampleFields
    (by decide) (by decide) (by decide)).1

/-- C3, counterexample.  The claim asserts HTTP 400 for *every* `POST
/log` request whose body does not decode as a JSON object.  With
`Content-Length: -5` and the undecodable body `not-json`, `int()` at line
117 succeeds but `rfile.read(-5)` at line 118 — still outside the `try` —
raises `ValueError: read length must be non-negative or -1`: the exception
escapes the handler and no response at all is sent, not a 400. -/
theorem claim_C3_counterexample :
    do_POST "/log" (some "-5") "not-json" ⟨0, 0, 0, 0⟩ [] =
      .uncaught "read length must be non-negative or -1" := by decide

/-- C3, amended.  If the Content-Length header parses to an integer
`≥ -1` (so `rfile.read` returns) and the read — possibly truncated or
empty — body does not decode as a JSON object — invalid JSON, valid JSON
of a non-object shape, or the empty body read when Content-Length is
missing or zero — `POST /log` answers 400 and the log is returned
unchanged, so the durable file, which is always the serialization of the
returned log, is unchanged as well.  A Content-Length `≤ -2` instead
raises uncaught at line 118 and no response is sent. -/
theorem claim_C3 (cl : Option String) (body : String) (now : Time) (logs : List Json)
    (n : Int)
    (hcl : pyInt (cl.getD "0") = some n) (hn : -1 ≤ n)
    (hbad : ∀ fields : JsonObj, jsonLoads (readBody n body) ≠ some (Json.obj fields)) :
    ∃ resp : HttpResponse,
      do_POST "/log" cl body now logs = .responded logs resp ∧ resp.status = 400 := by
  have hge : ¬ n ≤ -2 := by omega
  simp only [do_POST, hcl, hge, if_true, if_false, reduceIte]
  match hdec : jsonLoads (readBody n body) with
  | none => exact ⟨_, rfl, rfl⟩
  | some Json.null => exact ⟨_, rfl, rfl⟩
  | some (Json.bool b) => exact ⟨_, rfl, rfl⟩
  | some (Json.num t) => exact ⟨_, rfl, rfl⟩
  | some (Json.str s) => exact ⟨_, rfl, rfl⟩
  | some (Json.arr xs) => exact ⟨_, rfl, rfl⟩
  | some (Json.obj fields) => exact absurd hdec (hbad fields)

theorem claim_C3_witness :
    (pyInt ((some "8" : Option String).getD "0") = some 8 ∧
      ∃ resp : HttpResponse,
        do_POST "/log" (some "8") "not-json" ⟨0, 0, 0, 0⟩ [] = .responded [] resp ∧
        resp.status = 400) ∧
    (pyInt ((some "1" : Option String).getD "0") = some 1 ∧
      ∃ resp : HttpResponse,
        do_POST "/log" (some "1") "5" ⟨0, 0, 0, 0⟩ [] = .responded [] resp ∧
        resp.status = 400) ∧
    (pyInt ((none : Option String).getD "0") = some 0 ∧
      ∃ resp : HttpResponse,
        do_POST "/log" none "ignored" ⟨0, 0, 0, 0⟩ [] = .responded [] resp ∧
        resp.status = 400) := by
  refine ⟨⟨by decide, ?_⟩, ⟨by decide, ?_⟩, ⟨by decide, ?_⟩⟩
  · exact claim_C3 (some "8") "not-json" ⟨0, 0, 0, 0⟩ [] 8 (by decide) (by decide)
      (fun fields h => by
        rw [show jsonLoads (readBody 8 "not-json") = none from by decide] at h
        cases h)
  · exact claim_C3 (some "1") "5" ⟨0, 0, 0, 0⟩ [] 1 (by decide) (by decide)
      (fun fields h => by
        rw [show jsonLoads (readBody 1 "5") = some (Json.num "5") from by decide] at h
        cases h)
  · exact claim_C3 none "ignored" ⟨0, 0, 0, 0⟩ [] 0 (by decide) (by decide)
      (fun fields h => by
        rw [show jsonLoads (readBody 0 "ignored") = none from by decide] at h
        cases h)

/-- C4, counterexample.  The claim says every malformed `POST /log`
request — explicitly including an inconsistent or non-numeric
Content-Length header — is caught inside the handler and answered with
HTTP 400.  But lines 117-118 run before the `try` block: with
`Content-Length: abc` the `ValueError` from `int()` escapes `do_POST`
uncaught, and with the numeric `Content-Length: -5` the `ValueError` from
`rfile.read(-5)` escapes likewise; in both cases no response of any kind
is produced. -/
theorem claim_C4_counterexample :
    do_POST "/log" (some "abc") "\x7b\x7d" ⟨0, 0, 0, 0⟩ [] =
      .uncaught "invalid literal for int() with base 10" ∧
    do_POST "/log" (some "-5") "\x7b\x7d" ⟨0, 0, 0, 0⟩ [] =
      .uncaught "read length must be non-negative or -1" := by decide

/-- C4, amended.  Whenever the Content-Length header parses as an integer
`≥ -1` — so both `int()` at line 117 and `rfile.read` at line 118 return
and control reaches the `try` block — every decode or store error is
caught and the handler always produces a response, with status 200 or 400;
but a non-numeric Content-Length raises uncaught at line 117, and a
numeric one `≤ -2` raises uncaught from `rfile.read` at line 118, both
before the `try` block, yielding no HTTP response at all (the surrounding
`socketserver` machinery, not the handler, keeps the process alive). -/
theorem claim_C4 (cl : Option String) (body : String) (now : Time) (logs : List Json)
    (n : Int) (hcl : pyInt (cl.getD "0") = some n) (hn : -1 ≤ n) :
    ∃ (newLogs : List Json) (resp : HttpResponse),
      do_POST "/log" cl body now logs = .responded newLogs resp ∧
      (resp.status = 200 ∨ resp.status = 400) := by
  have hge : ¬ n ≤ -2 := by omega
  simp only [do_POST, hcl, hge, if_true, if_false, reduceIte]
  match hdec : jsonLoads (readBody n body) with
  | none => exact ⟨_, _, rfl, Or.inr rfl⟩
  | some Json.null => exact ⟨_, _, rfl, Or.inr rfl⟩
  | some (Json.bool b) => exact ⟨_, _, rfl, Or.inr rfl⟩
  | some (Json.num t) => exact ⟨_, _, rfl, Or.inr rfl⟩
  | some (Json.str s) => exact ⟨_, _, rfl, Or.inr rfl⟩
  | some (Json.arr xs) => exact ⟨_, _, rfl, Or.inr rfl⟩
  | some (Json.obj fields) => exact ⟨_, _, rfl, Or.inl rfl⟩

theorem claim_C4_witness :
    pyInt ((some "12" : Option String).getD "0") = some 12 ∧ (-1 : Int) ≤ 12 ∧
    ∃ (newLogs : List Json) (resp : HttpResponse),
      do_POST "/log" (some "12") "\x7b\"broken\"" ⟨0, 0, 0, 0⟩ [] = .responded newLogs resp ∧
      (resp.status = 200 ∨ resp.status = 400) :=
  ⟨by decide, by decide,
   claim_C4 (some "12") "\x7b\"broken\"" ⟨0, 0, 0, 0⟩ [] 12 (by decide) (by decide)⟩

/-- C5, counterexample.  The claim says that after a failed durable write
the observable log equals the log before the append.  The code performs no
rollback: `f.seek(0)` followed by a `json.dump` that dies mid-write leaves
the file holding a prefix of the new serialization over the old content
(`f.truncate()` is never reached).  Concretely, appending one record to the
empty log with the write failing after 3 bytes leaves the file holding
`[{"` instead of `[]`, while the operation is reported failed. -/
theorem claim_C5_counterexample :
    (appendPersistFail [] (.cons "state" (.str "NORMAL") .nil) ⟨0, 0, 0, 0⟩ 3
        "No space left on device").1 ≠ durableContent [] ∧
    (appendPersistFail [] (.cons "state" (.str "NORMAL") .nil) ⟨0, 0, 0, 0⟩ 3
        "No space left on device").2.status = 400 := by decide

/-- C5, amended.  A failed durable write is reported failed — the `except`
branch answers HTTP 400 with the CORS origin header, keeping the process
alive — but no rollback happens: the durable file is left with the first
`written` bytes of the new serialization spliced over the old content, and
it equals the pre-append content only in the special case that the failure
struck before any byte was written. -/
theorem claim_C5 (logs : List Json) (fields : JsonObj) (now : Time)
    (written : Nat) (emsg : String) :
    (appendPersistFail logs fields now written emsg).2.status = 400 ∧
    (appendPersistFail logs fields now written emsg).2.headers = [corsHdr] ∧
    (appendPersistFail logs fields now written emsg).2.body = emsg ∧
    (appendPersistFail logs fields now written emsg).1 =
      String.mk ((durableContent (appendLog logs fields now)).toList.take written ++
        (durableContent logs).toList.drop written) ∧
    (written = 0 → (appendPersistFail logs fields now written emsg).1 = durableContent logs) := by
  refine ⟨rfl, rfl, rfl, rfl, ?_⟩
  intro h
  subst h
  simp [appendPersistFail]

theorem claim_C5_witness :
    (appendPersistFail [] (.cons "state" (.str "NORMAL") .nil) ⟨0, 0, 0, 0⟩ 0
        "No space left on device").2.status = 400 ∧
    (appendPersistFail [] (.cons "state" (.str "NORMAL") .nil) ⟨0, 0, 0, 0⟩ 0
        "No space left on device").1 = durableContent [] :=
  ⟨(claim_C5 [] (.cons "state" (.str "NORMAL") .nil) ⟨0, 0, 0, 0⟩ 0
      "No space left on device").1,
   (claim_C5 [] (.cons "state" (.str "NORMAL") .nil) ⟨0, 0, 0, 0⟩ 0
      "No space left on device").2.2.2.2 rfl⟩

/-- C6, counterexample.  The claim fixes the success body as exactly
`{"status":"ok"}`; the code writes `b'{"status": "ok"}'` (line 136), with
a space after the colon, as this concrete successful request shows. -/
theorem claim_C6_counterexample :
    do_POST "/log" (some "2") "\x7b\x7d" ⟨1, 2, 3, 4000⟩ [] =
      .responded [Json.obj (.cons "timestamp" (.str "01:02:03.004") .nil)]
        ⟨200, [corsHdr, ("Content-Type", "application/json")], "\x7b\"status\": \"ok\"\x7d"⟩ ∧
    successBody ≠ "\x7b\"status\":\"ok\"\x7d" := by decide

/-- C6, amended.  Every successful `POST /log` — a success presupposes a
Content-Length parsing to an integer `≥ -1`, so the line-118 read returns,
and a body decoding as a JSON object — answers 200 with headers
`Access-Control-Allow-Origin: *` and `Content-Type: application/json` and
body `{"status": "ok"}` (a space after the colon — JSON-equivalent to the
claimed body but not byte-identical), and the response carries the fully
persisted post-append log: the durable sequence is written (lines 124-130)
before `send_response(200)` runs (line 132). -/
theorem claim_C6 (cl : Option String) (body : String) (now : Time) (logs : List Json)
    (n : Int) (fields : JsonObj)
    (hcl : pyInt (cl.getD "0") = some n) (hn : -1 ≤ n)
    (hdec : jsonLoads (readBody n body) = some (Json.obj fields)) :
    do_POST "/log" cl body now logs =
      .responded (appendLog logs fields now)
        ⟨200, [corsHdr, ("Content-Type", "application/json")], successBody⟩ := by
  have hge : ¬ n ≤ -2 := by omega
  simp [do_POST, hcl, hge, hdec]

theorem claim_C6_witness :
    pyInt ((some "2" : Option String).getD "0") = some 2 ∧ (-1 : Int) ≤ 2 ∧
    jsonLoads (readBody 2 "\x7b\x7d") = some (Json.obj .nil) ∧
    do_POST "/log" (some "2") "\x7b\x7d" ⟨23, 59, 59, 999999⟩ [] =
      .responded (appendLog [] .nil ⟨23, 59, 59, 999999⟩)
        ⟨200, [corsHdr, ("Content-Type", "application/json")], successBody⟩ :=
  ⟨by decide, by decide, by decide,
   claim_C6 (some "2") "\x7b\x7d" ⟨23, 59, 59, 999999⟩ [] 2 .nil (by decide) (by decide)
     (by decide)⟩

/-- C7.  Every `OPTIONS` response, on any path, is a 200 with no body and
all three CORS headers; and every response `do_POST` produces on `/log` —
the 200 success and both 400 error responses — carries the
`Access-Control-Allow-Origin: *` header. -/
theorem claim_C7 :
    (∀ path : String, (do_OPTIONS path).status = 200 ∧ (do_OPTIONS path).body = "" ∧
      (do_OPTIONS path).headers =
        [corsHdr, ("Access-Control-Allow-Methods", "POST, GET, OPTIONS"),
         ("Access-Control-Allow-Headers", "Content-Type")]) ∧
    (∀ (cl : Option String) (body : String) (now : Time) (logs newLogs : List Json)
        (resp : HttpResponse),
      do_POST "/log" cl body now logs = .responded newLogs resp → corsHdr ∈ resp.headers) := by
  constructor
  · intro path
    exact ⟨rfl, rfl, rfl⟩
  · intro cl body now logs newLogs resp h
    simp only [do_POST, reduceIte] at h
    split at h
    · cases h
    · split at h
      · cases h
      · split at h
        · injection h with h1 h2
          subst h2
          simp
        · injection h with h1 h2
          subst h2
          simp
        · injection h with h1 h2
          subst h2
          simp

theorem claim_C7_witness :
    ((do_OPTIONS "/any/path").status = 200 ∧ (do_OPTIONS "/any/path").body = "" ∧
      (do_OPTIONS "/any/path").headers =
        [corsHdr, ("Access-Control-Allow-Methods", "POST, GET, OPTIONS"),
         ("Access-Control-Allow-Headers", "Content-Type")]) ∧
    corsHdr ∈ (HttpResponse.mk 400 [corsHdr] decodeErrText).headers :=
  ⟨claim_C7.1 "/any/path",
   claim_C7.2 (some "8") "not-json" ⟨0, 0, 0, 0⟩ [] [] ⟨400, [corsHdr], decodeErrText⟩
     (by decide)⟩

/-- C8.  The server (`socketserver.TCPServer`, single-threaded and
synchronous) handles requests one at a time, so in any trace of requests a
`GET /data` snapshot at position `i` returns exactly the serialization of
the durable log produced by the first `i` requests, each applied to
completion — never a partially-written record or a half-applied trim. -/
theorem claim_C8 (reqs : List Request) (rest : List Request) (i : Nat)
    (h : reqs.drop i = Request.get "/data" :: rest) :
    responseAt reqs i =
      some ⟨200, [("Content-type", "application/json")],
        durableContent (logsAfter (reqs.take i))⟩ := by
  simp [responseAt, h, stepServer, do_GET]

/-- A concrete two-request trace: one append, then one snapshot. -/
def exampleTrace : List Request :=
  [Request.post "/log" (some "2") "\x7b\x7d" ⟨1, 2, 3, 4000⟩, Request.get "/data"]

theorem claim_C8_witness :
    exampleTrace.drop 1 = [Request.get "/data"] ∧
    responseAt exampleTrace 1 =
      some ⟨200, [("Content-type", "application/json")],
        durableContent (logsAfter (exampleTrace.take 1))⟩ :=
  ⟨rfl, claim_C8 exampleTrace [] 1 rfl⟩

/-- C9.  A `POST` to any path other than `/log`, and a `GET` to any path
other than `/` and `/data`, fall through the handler's dispatch with no
else-branch: the handler writes nothing at all to the connection. -/
theorem claim_C9 :
    (∀ (path : String) (cl : Option String) (body : String) (now : Time) (logs : List Json),
      path ≠ "/log" → do_POST path cl body now logs = .noResponse) ∧
    (∀ (path : String) (logs : List Json),
      path ≠ "/" → path ≠ "/data" → do_GET path logs = none) := by
  constructor
  · intro path cl body now logs hp
    simp [do_POST, hp]
  · intro path logs h1 h2
    simp [do_GET, h1, h2]

theorem claim_C9_witness :
    do_POST "/status" none "" ⟨0, 0, 0, 0⟩ [] = PostResult.noResponse ∧
    do_GET "/logs" [] = none :=
  ⟨claim_C9.1 "/status" none "" ⟨0, 0, 0, 0⟩ [] (by decide),
   claim_C9.2 "/logs" [] (by decide) (by decide)⟩

/-- C10.  `GET /data` always answers 200 with a `Content-type:
application/json` header (header names are case-insensitive on the wire)
and the raw content of the durable log file as body, and carries no
`Access-Control-Allow-Origin` header, unlike the `/` and `/log`
responses. -/
theorem claim_C10 (logs : List Json) :
    do_GET "/data" logs =
      some ⟨200, [("Content-type", "application/json")], durableContent logs⟩ ∧
    (∀ resp : HttpResponse, do_GET "/data" logs = some resp →
      (resp.headers.any
        (fun hv => hdrNameEq hv.1 "Content-Type" && hv.2 == "application/json")) = true ∧
      (resp.headers.all (fun hv => !hdrNameEq hv.1 "Access-Control-Allow-Origin")) = true) := by
  have h : do_GET "/data" logs =
      some ⟨200, [("Content-type", "application/json")], durableContent logs⟩ := by
    simp [do_GET]
  refine ⟨h, ?_⟩
  intro resp hr
  rw [h] at hr
  injection hr with hr2
  subst hr2
  refine ⟨?_, ?_⟩
  · show (([("Content-type", "application/json")] : List (String × String)).any
        (fun hv => hdrNameEq hv.1 "Content-Type" && hv.2 == "application/json")) = true
    decide
  · show (([("Content-type", "application/json")] : List (String × String)).all
        (fun hv => !hdrNameEq hv.1 "Access-Control-Allow-Origin")) = true
    decide

theorem claim_C10_witness :
    do_GET "/data" [] =
      some ⟨200, [("Content-type", "application/json")], durableContent []⟩ ∧
    (([("Content-type", "application/json")].any
        (fun hv => hdrNameEq hv.1 "Content-Type" && hv.2 == "application/json")) = true ∧
      (([("Content-type", "application/json")] : List (String × String)).all
        (fun hv => !hdrNameEq hv.1 "Access-Control-Allow-Origin")) = true) :=
  ⟨(claim_C10 []).1,
   (claim_C10 []).2 ⟨200, [("Content-type", "application/json")], durableContent []⟩
     (claim_C10 []).1⟩
